import Mathlib

/-!
Verification of the fastapi-llms-txt repository: a shallow embedding of
`fastapi_llms_txt/generator.py`, `fastapi_llms_txt/plugin.py` and
`fastapi_llms_txt/models.py`, together with theorems settling the frozen
claims about the natural-language specification.

Python string primitives are modelled as executable functions on the
character list (`String.data`) of a Lean `String`, so that every
definition evaluates by kernel reduction on concrete inputs.
-/

namespace LlmsTxt

/-! ### Python string primitives (modelled on the character list) -/

/-- Splits a character list on a separator character, keeping empty pieces,
exactly like Python `s.split(sep)` with a one-character separator:
the empty string yields one empty piece. -/
def splitChars (sep : Char) : List Char → List (List Char)
  | [] => [[]]
  | c :: cs =>
    if c = sep then [] :: splitChars sep cs
    else
      match splitChars sep cs with
      | [] => [[c]]
      | w :: ws => (c :: w) :: ws

/-- Python `s.split(sep)` for a one-character separator. -/
def pySplit (s : String) (sep : Char) : List String :=
  (splitChars sep s.data).map (fun cs => ⟨cs⟩)

/-- Python `s.startswith(p)`. -/
def pyStartsWith (s p : String) : Bool :=
  p.data.isPrefixOf s.data

/-- Python `s.endswith(p)`. -/
def pyEndsWith (s p : String) : Bool :=
  p.data.reverse.isPrefixOf s.data.reverse

/-- Python `c in s` for a single character `c` (substring containment of a
one-character string is the same as character membership). -/
def pyContainsChar (s : String) (c : Char) : Bool :=
  s.data.contains c

/-- Python `s[1:-1]`: drop the first and the last character. -/
def pyInner (s : String) : String :=
  ⟨(s.data.drop 1).dropLast⟩

/-- Replaces every non-overlapping occurrence of `pat` (left to right) by
`rep`, like Python `s.replace(pat, rep)` for a non-empty pattern.  The
`fuel` argument makes the recursion structural; `fuel = length of the
input` always suffices because every step consumes at least one
character. -/
def pyReplaceAux (pat rep : List Char) : Nat → List Char → List Char
  | 0, l => l
  | _ + 1, [] => []
  | fuel + 1, c :: cs =>
    if pat ≠ [] ∧ pat.isPrefixOf (c :: cs) then
      rep ++ pyReplaceAux pat rep fuel ((c :: cs).drop pat.length)
    else
      c :: pyReplaceAux pat rep fuel cs

/-- Python `s.replace(pat, rep)` (for the non-empty patterns the source
uses). -/
def pyReplace (s pat rep : String) : String :=
  ⟨pyReplaceAux pat.data rep.data s.data.length s.data⟩

/-- Python `sep.join(parts)`. -/
def pyJoin (sep : String) : List String → String
  | [] => ""
  | [s] => s
  | s :: ss => s ++ sep ++ pyJoin sep ss

/-- One step of Python `s.title()`: an alphabetic character is uppercased
when the previous character was not alphabetic and lowercased otherwise;
other characters pass through. -/
def pyTitleAux : Bool → List Char → List Char
  | _, [] => []
  | prevAlpha, c :: cs =>
    (if c.isAlpha then (if prevAlpha then c.toLower else c.toUpper) else c)
      :: pyTitleAux c.isAlpha cs

/-- Python `s.title()`. -/
def pyTitle (s : String) : String :=
  ⟨pyTitleAux false s.data⟩

/-! ### Data model (`models.py` and the route shapes the generator reads)

`LinkItem` and `ProjectDescription` come from `models.py`.  `RouteR`,
`DepParam` and `AppModel` are the shapes of the route-table values the
generator reads through its defensive `getattr` accesses: every optional
attribute is modelled with the default the source supplies (`""` for a
missing string, `[]` for missing parameter metadata), and
`DepParam.fieldInfo = none` models a `field_info` that is `None` while
`some d` models a present `field_info` whose `description` is `d`
(`d = none` for a `None` description). -/

structure LinkItem where
  title : String
  url : String
deriving DecidableEq

structure ProjectDescription where
  title : String
  summary : String
  notes : Option (List String)
  sections : List (String × List LinkItem)
deriving DecidableEq

structure DepParam where
  name : Option String
  type_ : String
  required : Bool
  fieldInfo : Option (Option String)
deriving DecidableEq

structure RouteR where
  name : String
  path : String
  methods : List String
  summary : String
  description : String
  endpointFuncName : String
  dependantParams : List DepParam
deriving DecidableEq

structure AppModel where
  routes : List RouteR
deriving DecidableEq

structure LLMsTxtGenerator where
  projectDescription : ProjectDescription
  app : Option AppModel

/-- One merged parameter record, the dictionary built by
`_get_endpoint_params` (keys `name`, `required`, `type`, `description`;
the description value can be Python `None`, modelled as `none`). -/
structure ParamInfo where
  name : String
  required : Bool
  type : String
  description : Option String
deriving DecidableEq

/-! ### `generator.py` -/

/-- The single-quote character, built from its code point. -/
def sq : String := ⟨['\x27']⟩

/-- Opening part of the class wrapper repr stripped by the type cleanup. -/
def clsOpen : String := "<class " ++ sq

/-- Closing part of the class wrapper repr stripped by the type cleanup. -/
def clsClose : String := sq ++ ">"

/-- Source generator.py lines 179-182: the type string cleanup
(`replace("typing.", "")`, then stripping the class wrapper). -/
def cleanType (s : String) : String :=
  pyReplace (pyReplace (pyReplace s ("typing.") ("")) clsOpen ("")) clsClose ("")

/-- Source generator.py lines 159-164: the record synthesized for a path
parameter extracted from the path template. -/
def mkPathParam (n : String) : ParamInfo :=
  { name := n
    required := true
    type := "str"
    description := some ("Path parameter: " ++ n) }

/-- Models the Python dict assignment in path_params collection: the value is
determined by the name alone, so overwriting equals keeping the first
insertion; insertion order is preserved. -/
def insertPathParam (acc : List ParamInfo) (n : String) : List ParamInfo :=
  if acc.any (fun q => q.name == n) then acc else acc ++ [mkPathParam n]

/-- A path segment of the form `{...}`
(`part.startswith` brace and `part.endswith` brace). -/
def isPlaceholderSeg (p : String) : Bool :=
  pyStartsWith p ("\x7b") && pyEndsWith p ("\x7d")

/-- The loop body of `generator.py` lines 156-164. -/
def pathStep (acc : List ParamInfo) (part : String) : List ParamInfo :=
  if isPlaceholderSeg part then insertPathParam acc (pyInner part) else acc

/-- Source generator.py lines 152-164: path parameters extracted from the path
template (guarded by `route_path and` brace-containment). -/
def pathParams (path : String) : List ParamInfo :=
  if path ≠ "" ∧ pyContainsChar path ('\x7b') then
    (pySplit path ('/')).foldl pathStep []
  else []

/-- Source generator.py lines 188-191: the raw description read for a
dependant parameter (`""` when `field_info` is `None`, otherwise the
`description` attribute, which may itself be `None`). -/
def depDescr (p : DepParam) : Option String :=
  match p.fieldInfo with
  | none => some ("")
  | some fi => fi

/-- Source generator.py lines 172-204, one iteration: the merged record built
for one dependant parameter (skipped when the name is absent or empty,
i.e. falsy). -/
def depParamEntry (pps : List ParamInfo) (p : DepParam) : Option ParamInfo :=
  match p.name with
  | none => none
  | some n =>
    if n = "" then none
    else
      some
        { name := n
          required := p.required
          type := cleanType p.type_
          description :=
            if pps.any (fun q => q.name == n)
                && (depDescr p == none || depDescr p == some ("")) then
              some ("Path parameter: " ++ n)
            else depDescr p }

/-- Source generator.py lines 146-218, `_get_endpoint_params`: dependant
parameters first (in order), then the path-template parameters whose
names did not occur among the dependant parameter names.  The trailing
docstring inspection in the source has no effect on the result and is
omitted. -/
def getEndpointParams (r : RouteR) : List ParamInfo :=
  let pps := pathParams r.path
  let deps := r.dependantParams.filterMap (depParamEntry pps)
  deps ++ pps.filter (fun pp => !(deps.any (fun d => d.name == pp.name)))

/-- Models func_name.replace of underscores with spaces, then .title(). -/
def humanize (s : String) : String :=
  pyTitle (pyReplace s ("_") (" "))

/-- Source generator.py lines 126-144, `_get_endpoint_name`. -/
def getEndpointName (r : RouteR) : String :=
  if r.endpointFuncName = "serve_llms_txt" then ""
  else if r.endpointFuncName ≠ "" ∧ r.endpointFuncName ≠ "serve_llms_txt" then
    humanize r.endpointFuncName
  else if r.path ≠ "" then
    match ((pySplit r.path ('/')).filter
        (fun p => p != "" && !(pyStartsWith p ("\x7b")))).getLast? with
    | some last => humanize last
    | none => ""
  else ""

/-- Source generator.py lines 98-108: one rendered parameter line. -/
def paramLine (p : ParamInfo) : String :=
  "- `" ++ p.name ++ "` (" ++ p.type ++ ", "
    ++ (if p.required then "required" else "optional") ++ "): "
    ++ (match p.description with | none => "None" | some d => d)

/-- Source generator.py lines 80-109: the lines appended for one route that
passed the name and path filters. -/
def routeLines (r : RouteR) : List String :=
  let methodsStr := if r.methods.isEmpty then "GET" else pyJoin (", ") r.methods
  let summary := if r.summary ≠ "" then r.summary else getEndpointName r
  let params := getEndpointParams r
  ["### " ++ methodsStr ++ " " ++ r.path, ""]
    ++ (if summary ≠ "" then [summary, ""] else [])
    ++ (if r.description ≠ "" then [r.description, ""] else [])
    ++ (if params.isEmpty then []
        else ["**Parameters:**", ""] ++ params.map paramLine ++ [""])

/-- Source generator.py lines 114-124, `_get_all_routes`: the `isinstance`
check is modelled by `AppModel.routes` holding only route-shaped values. -/
def getAllRoutes (app : AppModel) : List RouteR :=
  app.routes.filter (fun r => r.name != "serve_llms_txt")

/-- Source generator.py lines 53-112, `_generate_api_docs`: the
`has_routes_content` flag is true exactly when some enumerated route
passes the name and path checks, and the rendered lines are the header
followed by each such route's lines in order. -/
def generateApiDocs (app : AppModel) : List String :=
  let routes := getAllRoutes app
  if routes.isEmpty then []
  else
    let rendered := routes.filter
      (fun r => r.name != "serve_llms_txt" && r.path != "")
    if rendered.isEmpty then []
    else ["## API Endpoints", ""] ++ rendered.flatMap routeLines

/-- Source generator.py lines 32-35: the notes block (`notes` is falsy both
when `None` and when empty). -/
def notesBlock : Option (List String) → List String
  | none => []
  | some ns => if ns.isEmpty then [] else ns.map (fun n => "- " ++ n) ++ [""]

/-- Source generator.py lines 44-49: the lines appended for one section. -/
def sectionLines (s : String × List LinkItem) : List String :=
  ["## " ++ s.1, ""]
    ++ s.2.map (fun l => "- [" ++ l.title ++ "](" ++ l.url ++ ")") ++ [""]

/-- Source generator.py lines 22-51, `generate`, as the list of lines joined at
the end; extending with an empty `api_docs` list equals skipping the
extension. -/
def generateLines (g : LLMsTxtGenerator) : List String :=
  ["# " ++ g.projectDescription.title, "", g.projectDescription.summary, ""]
    ++ notesBlock g.projectDescription.notes
    ++ (match g.app with | none => [] | some app => generateApiDocs app)
    ++ g.projectDescription.sections.flatMap sectionLines

/-- Source generator.py line 51: `"\n".join(content)`. -/
def generate (g : LLMsTxtGenerator) : String :=
  pyJoin ("\n") (generateLines g)

/-! ### `plugin.py` -/

/-- The `title` and `url` keys a raw link mapping may carry. -/
structure RawLinkFields where
  title : Option String
  url : Option String
deriving DecidableEq

/-- One raw link entry of the `sections` argument: either a mapping (with
each required key possibly missing) or a non-mapping value, whose
indexing raises inside the `try` block. -/
inductive RawLink where
  | mapping (fields : RawLinkFields)
  | notMapping
deriving DecidableEq

/-- Modelled from the spec: pydantic `HttpUrl` validation (the `url`
field of `LinkItem` in `models.py`; the validator itself lives in the
external pydantic library).  Per the spec a link's `url` must be a valid
URL; an http or https URL is accepted, anything else is rejected at
construction. -/
def validUrl (s : String) : Bool :=
  pyStartsWith s ("http://") || pyStartsWith s ("https://")

/-- Source plugin.py lines 41-45, the body of the `try` block for one raw
link: a missing `title` or `url` key raises `ValueError`, a non-mapping
raises on indexing, and `LinkItem` construction raises on an invalid
URL. -/
def processLinkE : RawLink → Except String LinkItem
  | .notMapping => .error ("link is not a mapping")
  | .mapping f =>
    match f.title, f.url with
    | some t, some u =>
      if validUrl u then .ok { title := t, url := u }
      else .error ("invalid url")
    | _, _ => .error ("Link must have title and url keys")

/-- Source plugin.py lines 41-49: the `except` clause logs and continues, so a
raising link contributes nothing. -/
def processLink (l : RawLink) : Option LinkItem :=
  (processLinkE l).toOption

/-- Source plugin.py lines 39-49: the links kept for one section. -/
def processSection (links : List RawLink) : List LinkItem :=
  links.filterMap processLink

/-- Source plugin.py lines 37-50: every section is recorded (even with an
empty validated link list). -/
def processSections (sections : List (String × List RawLink)) :
    List (String × List LinkItem) :=
  sections.map (fun s => (s.1, processSection s.2))

/-- Source plugin.py lines 52-54: the `ProjectDescription` built by
`add_llms_txt`. -/
def buildProjectDescription (ttl smry : String) (notes : Option (List String))
    (sections : List (String × List RawLink)) : ProjectDescription :=
  { title := ttl, summary := smry, notes := notes
    sections := processSections sections }

/-- One entry of `app.openapi_tags` as the source reads it
(`tag.get("name")`). -/
structure TagMeta where
  name : Option String
  description : Option String
deriving DecidableEq

/-- The tag description appended by `plugin.py` lines 96-105. -/
def llmsTagDescription : String :=
  "Endpoints related to the llms.txt specification, "
    ++ "which provides information for Large Language Models "
    ++ "about the purpose and capabilities of this API."

/-- Source plugin.py lines 89-105: a `None` tag list becomes `[]`; the
reserved tag is appended only when no existing tag carries the exact
name `LLMs.txt`. -/
def updateOpenapiTags (tags : Option (List TagMeta)) : List TagMeta :=
  let ts := tags.getD []
  if ts.any (fun t => t.name == some ("LLMs.txt")) then ts
  else ts ++ [{ name := some ("LLMs.txt"), description := some llmsTagDescription }]

/-! ### Spec-side definitions (for the refinement-style claims) -/

/-- The placeholder names of a list of path segments: the segments of the
form `{...}`, with the braces stripped, in order. -/
def placeholderNamesOf (parts : List String) : List String :=
  (parts.filter isPlaceholderSeg).map pyInner

/-- The placeholder names of a path template. -/
def placeholderNames (path : String) : List String :=
  placeholderNamesOf (pySplit path ('/'))

/-- Follows the spec's words for the endpoint-name derivation: empty for
the reserved handler name; else the humanized handler identifier when one
is available; else the last path segment that is neither empty nor a
path-parameter placeholder, humanized; else empty.  A path-parameter
placeholder is, per the spec and its glossary, a segment of the form
`{...}`: it must both start with the opening brace and end with the
closing brace. -/
def specEndpointName (r : RouteR) : String :=
  if r.endpointFuncName = "serve_llms_txt" then ""
  else if r.endpointFuncName ≠ "" then humanize r.endpointFuncName
  else
    match ((pySplit r.path ('/')).filter
        (fun p => p != ""
          && !(pyStartsWith p ("\x7b") && pyEndsWith p ("\x7d")))).getLast? with
    | some last => humanize last
    | none => ""

/-- Follows the amended claim's words for the endpoint-name derivation:
identical to `specEndpointName` except that the segment-dropping test is
the source's own test, which drops every segment that starts with the
placeholder opening brace, whether or not a closing brace follows. -/
def amendedEndpointName (r : RouteR) : String :=
  if r.endpointFuncName = "serve_llms_txt" then ""
  else if r.endpointFuncName ≠ "" then humanize r.endpointFuncName
  else
    match ((pySplit r.path ('/')).filter
        (fun p => p != "" && !(pyStartsWith p ("\x7b")))).getLast? with
    | some last => humanize last
    | none => ""

/-- Follows the spec's words for link processing: a raw link is kept
exactly when it is a well-formed mapping carrying both required keys and
a valid URL; every malformed entry is skipped and every well-formed
sibling is kept, in order. -/
def specProcessSection (links : List RawLink) : List LinkItem :=
  links.filterMap (fun l =>
    match l with
    | .notMapping => none
    | .mapping f =>
      match f.title, f.url with
      | some t, some u => if validUrl u then some { title := t, url := u } else none
      | _, _ => none)

/-- Name under which the dependant loop of `_get_endpoint_params`
records one dependant parameter (`none` when the loop skips it because
the name is absent or empty). -/
def depNameOf (p : DepParam) : Option String :=
  match p.name with
  | none => none
  | some n => if n = "" then none else some n

/-- Names contributed to `param_names` by the dependant loop of
`_get_endpoint_params`: one per dependant parameter with a non-falsy
name, in order. -/
def depNames (r : RouteR) : List String :=
  r.dependantParams.filterMap depNameOf

/-! ### Concrete fixtures used by the witness theorems -/

/-- Fixture: the documentation endpoint route itself. -/
def rLlms : RouteR :=
  { name := "serve_llms_txt", path := "/llms.txt", methods := ["GET"],
    summary := "", description := "", endpointFuncName := "serve_llms_txt",
    dependantParams := [] }

/-- Fixture: a root route with a summary. -/
def rRoot : RouteR :=
  { name := "root", path := "/", methods := ["GET"], summary := "Root",
    description := "", endpointFuncName := "root", dependantParams := [] }

/-- Fixture: a route that declares no methods. -/
def rPing : RouteR :=
  { name := "ping", path := "/ping", methods := [], summary := "",
    description := "", endpointFuncName := "ping", dependantParams := [] }

/-- Fixture: a route with two methods. -/
def rUsers : RouteR :=
  { name := "users", path := "/users", methods := ["GET", "POST"],
    summary := "", description := "", endpointFuncName := "users",
    dependantParams := [] }

/-- Fixture: a minimal project description. -/
def pdT : ProjectDescription :=
  { title := "T", summary := "S", notes := none, sections := [] }

/-- Fixture: a project description with one note and one section. -/
def pdDocs : ProjectDescription :=
  { title := "T", summary := "Sum", notes := some [("n1")],
    sections := [(("Docs"), [{ title := "A", url := "https://a.example" }])] }

/-- Fixture: two malformed raw links (a non-mapping and a mapping with a
missing title key). -/
def linksBad : List RawLink :=
  [RawLink.notMapping,
   RawLink.mapping { title := none, url := some ("https://x.example") }]

/-! ### Helper lemmas -/

theorem hlp_data_append (s t : String) : (s ++ t).data = s.data ++ t.data := by
  cases s; cases t; rfl

theorem hlp_data_inj {a b : String} (h : a.data = b.data) : a = b := by
  cases a; cases b; exact congrArg String.mk h

theorem hlp_ne_of_get0 {a b : String} (h : a.data.get? 0 ≠ b.data.get? 0) : a ≠ b :=
  fun e => h (by rw [e])

theorem hlp_ne_of_get1 {a b : String} (h : a.data.get? 1 ≠ b.data.get? 1) : a ≠ b :=
  fun e => h (by rw [e])

theorem hlp_title_ne (t : String) : "# " ++ t ≠ "## API Endpoints" := by
  apply hlp_ne_of_get1
  have hl : (("# " ++ t).data).get? 1 = some (' ') := by
    rw [hlp_data_append]; rfl
  rw [hl]; decide

theorem hlp_note_ne (t : String) : "- " ++ t ≠ "## API Endpoints" := by
  apply hlp_ne_of_get0
  have hl : (("- " ++ t).data).get? 0 = some ('-') := by
    rw [hlp_data_append]; rfl
  rw [hl]; decide

theorem hlp_linkline_ne (a b : String) :
    "- [" ++ a ++ "](" ++ b ++ ")" ≠ "## API Endpoints" := by
  apply hlp_ne_of_get0
  have hl : (("- [" ++ a ++ "](" ++ b ++ ")").data).get? 0 = some ('-') := by
    simp only [hlp_data_append]; rfl
  rw [hl]; decide

theorem hlp_sec_header_eq {x : String} (h : "## " ++ x = "## API Endpoints") :
    x = "API Endpoints" := by
  have h2 := congrArg String.data h
  rw [hlp_data_append] at h2
  have hr : ("## API Endpoints").data = ("## ").data ++ ("API Endpoints").data := rfl
  rw [hr] at h2
  exact hlp_data_inj (List.append_cancel_left h2)

theorem hlp_phnames_cons_pos {p : String} (ps : List String)
    (hp : isPlaceholderSeg p = true) :
    placeholderNamesOf (p :: ps) = pyInner p :: placeholderNamesOf ps := by
  simp [placeholderNamesOf, hp]

theorem hlp_phnames_cons_neg {p : String} (ps : List String)
    (hp : isPlaceholderSeg p = false) :
    placeholderNamesOf (p :: ps) = placeholderNamesOf ps := by
  simp [placeholderNamesOf, hp]

theorem hlp_pathFold_eq : ∀ (parts : List String) (acc : List ParamInfo),
    (placeholderNamesOf parts).Nodup →
    (∀ n ∈ placeholderNamesOf parts, acc.any (fun q => q.name == n) = false) →
    parts.foldl pathStep acc = acc ++ (placeholderNamesOf parts).map mkPathParam := by
  intro parts
  induction parts with
  | nil => intro acc _ _; simp [placeholderNamesOf]
  | cons p ps ih =>
    intro acc hnd hfresh
    by_cases hp : isPlaceholderSeg p = true
    · rw [hlp_phnames_cons_pos ps hp] at hnd hfresh ⊢
      have hany : acc.any (fun q => q.name == pyInner p) = false := hfresh _ (by simp)
      have hstep : pathStep acc p = acc ++ [mkPathParam (pyInner p)] := by
        simp [pathStep, hp, insertPathParam, hany]
      have hnotin : pyInner p ∉ placeholderNamesOf ps := (List.nodup_cons.mp hnd).1
      have hfresh' : ∀ n ∈ placeholderNamesOf ps,
          (acc ++ [mkPathParam (pyInner p)]).any (fun q => q.name == n) = false := by
        intro n hn
        have h1 := hfresh n (List.mem_cons_of_mem _ hn)
        have h2 : pyInner p ≠ n := fun e => hnotin (e ▸ hn)
        simp [List.any_append, h1, mkPathParam, h2]
      rw [List.foldl_cons, hstep, ih _ (List.nodup_cons.mp hnd).2 hfresh']
      simp
    · have hp' : isPlaceholderSeg p = false := by simpa using hp
      rw [hlp_phnames_cons_neg ps hp'] at hnd hfresh ⊢
      have hstep : pathStep acc p = acc := by simp [pathStep, hp']
      rw [List.foldl_cons, hstep, ih _ hnd hfresh]

theorem hlp_pathParams_eq (path : String) (h1 : path ≠ "")
    (h2 : pyContainsChar path ('\x7b') = true)
    (hnd : (placeholderNames path).Nodup) :
    pathParams path = (placeholderNames path).map mkPathParam := by
  rw [pathParams, if_pos ⟨h1, h2⟩]
  simpa using hlp_pathFold_eq (pySplit path ('/')) [] hnd (fun n _ => rfl)

theorem hlp_insert_names_nodup (acc : List ParamInfo) (n : String)
    (h : (acc.map ParamInfo.name).Nodup) :
    ((insertPathParam acc n).map ParamInfo.name).Nodup := by
  unfold insertPathParam
  split
  · exact h
  · rename_i hany
    rw [List.map_append]
    apply List.Nodup.append h (by simp)
    intro a ha hb
    simp [mkPathParam] at hb
    subst hb
    rcases List.mem_map.mp ha with ⟨q, hq, hqe⟩
    exact hany (List.any_eq_true.mpr ⟨q, hq, by simp [hqe]⟩)

theorem hlp_pathFold_names_nodup : ∀ (parts : List String) (acc : List ParamInfo),
    ((acc.map ParamInfo.name).Nodup) →
    (((parts.foldl pathStep acc).map ParamInfo.name).Nodup) := by
  intro parts
  induction parts with
  | nil => intro acc h; simpa using h
  | cons p ps ih =>
    intro acc h
    rw [List.foldl_cons]
    apply ih
    unfold pathStep
    split
    · exact hlp_insert_names_nodup acc (pyInner p) h
    · exact h

theorem hlp_pathParams_names_nodup (path : String) :
    ((pathParams path).map ParamInfo.name).Nodup := by
  unfold pathParams
  split
  · exact hlp_pathFold_names_nodup _ [] (by simp)
  · simp

theorem hlp_depEntries_names (pps : List ParamInfo) :
    ∀ l : List DepParam,
      ((l.filterMap (depParamEntry pps)).map ParamInfo.name)
        = l.filterMap depNameOf := by
  intro l
  induction l with
  | nil => rfl
  | cons p ps ih =>
    cases hn : p.name with
    | none => simp [List.filterMap_cons, depParamEntry, depNameOf, hn, ih]
    | some n =>
      by_cases hz : n = ""
      · simp [List.filterMap_cons, depParamEntry, depNameOf, hn, hz, ih]
      · simp [List.filterMap_cons, depParamEntry, depNameOf, hn, hz, ih]

theorem hlp_head_mem {α : Type} {l : List α} {a : α} (h : l.head? = some a) :
    a ∈ l := by
  cases l with
  | nil => simp at h
  | cons b t =>
    simp at h
    rw [h]
    exact List.mem_cons_self _ _

theorem hlp_processLink_spec (l : RawLink) :
    processLink l = (match l with
      | RawLink.notMapping => none
      | RawLink.mapping f =>
        match f.title, f.url with
        | some t, some u =>
          if validUrl u then some { title := t, url := u } else none
        | _, _ => none) := by
  cases l with
  | notMapping => rfl
  | mapping f =>
    rcases f with ⟨t, u⟩
    cases t with
    | none => cases u <;> rfl
    | some tv =>
      cases u with
      | none => rfl
      | some uv =>
        by_cases hv : validUrl uv
        · simp [processLink, processLinkE, hv, Except.toOption]
        · simp [processLink, processLinkE, hv, Except.toOption]

/-! ### Claim theorems -/

/-- Claim C1: for every route and every dependant parameter whose
(non-empty) name also occurs among the path-template parameters, the
merged list produced by `_get_endpoint_params` contains that parameter
with the dependant metadata's required flag and cleaned type; its
description is the dependant metadata's description when that is
non-empty, and the synthesized string `Path parameter: name` when the
dependant metadata supplies an empty (or absent) description. -/
theorem claim_C1 (r : RouteR) (p : DepParam) (n : String)
    (hmem : p ∈ r.dependantParams) (hname : p.name = some n) (hne : n ≠ "")
    (hpath : n ∈ (pathParams r.path).map ParamInfo.name) :
    ((depDescr p ≠ none → depDescr p ≠ some ("") →
        ({ name := n, required := p.required, type := cleanType p.type_,
           description := depDescr p } : ParamInfo) ∈ getEndpointParams r)
      ∧ ((depDescr p = none ∨ depDescr p = some ("")) →
        ({ name := n, required := p.required, type := cleanType p.type_,
           description := some ("Path parameter: " ++ n) } : ParamInfo)
          ∈ getEndpointParams r)) := by
  have hany : (pathParams r.path).any (fun q => q.name == n) = true := by
    rcases List.mem_map.mp hpath with ⟨q, hq, hqn⟩
    exact List.any_eq_true.mpr ⟨q, hq, by simp [hqn]⟩
  constructor
  · intro h1 h2
    have hfalse : (depDescr p == none || depDescr p == some ("")) = false := by
      cases hd : depDescr p with
      | none => exact absurd hd h1
      | some s =>
        have hs : s ≠ "" := fun e => h2 (by rw [hd, e])
        simp [hs]
    simp only [getEndpointParams]
    apply List.mem_append_left
    apply List.mem_filterMap.mpr
    exact ⟨p, hmem, by simp [depParamEntry, hname, hne, hany, hfalse]⟩
  · intro h
    have htrue : (depDescr p == none || depDescr p == some ("")) = true := by
      rcases h with h | h <;> simp [h]
    simp only [getEndpointParams]
    apply List.mem_append_left
    apply List.mem_filterMap.mpr
    exact ⟨p, hmem, by simp [depParamEntry, hname, hne, hany, htrue]⟩

/-- Claim C1, witness: on the route `/items/{item_id}/{other_id}` with
two dependant parameters, a non-empty dependant description is kept
verbatim and an absent one is replaced by the synthesized path-parameter
description. -/
theorem claim_C1_witness :
    ({ name := "item_id", required := true, type := "Optional[int]",
       description := some ("The identifier") } : ParamInfo)
        ∈ getEndpointParams
          { name := "get_item", path := "/items/{item_id}/{other_id}",
            methods := ["GET"], summary := "", description := "",
            endpointFuncName := "get_item",
            dependantParams :=
              [{ name := some ("item_id"), type_ := "typing.Optional[int]",
                 required := true, fieldInfo := some (some ("The identifier")) },
               { name := some ("other_id"), type_ := "str", required := false,
                 fieldInfo := none }] }
      ∧ ({ name := "other_id", required := false, type := "str",
           description := some ("Path parameter: other_id") } : ParamInfo)
          ∈ getEndpointParams
            { name := "get_item", path := "/items/{item_id}/{other_id}",
              methods := ["GET"], summary := "", description := "",
              endpointFuncName := "get_item",
              dependantParams :=
                [{ name := some ("item_id"), type_ := "typing.Optional[int]",
                   required := true, fieldInfo := some (some ("The identifier")) },
                 { name := some ("other_id"), type_ := "str", required := false,
                   fieldInfo := none }] } :=
  ⟨(claim_C1
      { name := "get_item", path := "/items/{item_id}/{other_id}",
        methods := ["GET"], summary := "", description := "",
        endpointFuncName := "get_item",
        dependantParams :=
          [{ name := some ("item_id"), type_ := "typing.Optional[int]",
             required := true, fieldInfo := some (some ("The identifier")) },
           { name := some ("other_id"), type_ := "str", required := false,
             fieldInfo := none }] }
      { name := some ("item_id"), type_ := "typing.Optional[int]",
        required := true, fieldInfo := some (some ("The identifier")) }
      ("item_id") (by decide) rfl (by decide) (by decide)).1
      (by decide) (by decide),
    (claim_C1
      { name := "get_item", path := "/items/{item_id}/{other_id}",
        methods := ["GET"], summary := "", description := "",
        endpointFuncName := "get_item",
        dependantParams :=
          [{ name := some ("item_id"), type_ := "typing.Optional[int]",
             required := true, fieldInfo := some (some ("The identifier")) },
           { name := some ("other_id"), type_ := "str", required := false,
             fieldInfo := none }] }
      { name := some ("other_id"), type_ := "str", required := false,
        fieldInfo := none }
      ("other_id") (by decide) rfl (by decide) (by decide)).2
      (by decide)⟩

/-- Claim C2: a route whose path template has exactly two placeholder
segments (with their two distinct names) and whose dependant parameter
metadata is empty merges to exactly the two synthesized path parameters,
in order, each required, of type `str`, each described by the
synthesized `Path parameter: name` string. -/
theorem claim_C2 (r : RouteR) (a b : String)
    (hdep : r.dependantParams = [])
    (hne : r.path ≠ "") (hcont : pyContainsChar r.path ('\x7b') = true)
    (hph : placeholderNames r.path = [a, b]) (hab : a ≠ b) :
    getEndpointParams r = [mkPathParam a, mkPathParam b]
      ∧ (getEndpointParams r).length = 2 := by
  have hnd : (placeholderNames r.path).Nodup := by rw [hph]; simp [hab]
  have hpp : pathParams r.path = [mkPathParam a, mkPathParam b] := by
    rw [hlp_pathParams_eq r.path hne hcont hnd, hph]; rfl
  have hmain : getEndpointParams r = [mkPathParam a, mkPathParam b] := by
    simp only [getEndpointParams, hdep, List.filterMap_nil, hpp]
    simp
  exact ⟨hmain, by rw [hmain]; rfl⟩

/-- Claim C2, witness: the route `/books/{book_id}/chapters/{chapter_id}`
with no dependant metadata yields exactly the two synthesized path
parameters. -/
theorem claim_C2_witness :
    getEndpointParams
        { name := "get_chapter", path := "/books/{book_id}/chapters/{chapter_id}",
          methods := ["GET"], summary := "", description := "",
          endpointFuncName := "get_chapter", dependantParams := [] }
      = [{ name := "book_id", required := true, type := "str",
           description := some ("Path parameter: book_id") },
         { name := "chapter_id", required := true, type := "str",
           description := some ("Path parameter: chapter_id") }]
      ∧ (getEndpointParams
        { name := "get_chapter", path := "/books/{book_id}/chapters/{chapter_id}",
          methods := ["GET"], summary := "", description := "",
          endpointFuncName := "get_chapter", dependantParams := [] }).length = 2 :=
  claim_C2 _ ("book_id") ("chapter_id") rfl (by decide) (by decide) (by decide)
    (by decide)

/-- Claim C3, counterexample: on the route with path `/a/{b` (a segment
that starts with the placeholder opening brace but has no closing brace,
so it is not a `{...}` placeholder) and no handler name, the code drops
that segment and derives `A` from the segment `a`, while the spec's
derivation keeps it and yields `{B`; so the claim's derivation rule
fails on the code as stated. -/
theorem claim_C3_counterexample :
    getEndpointName
        { name := "r", path := "/a/\x7bb", methods := ["GET"], summary := "",
          description := "", endpointFuncName := "", dependantParams := [] }
      ≠ specEndpointName
        { name := "r", path := "/a/\x7bb", methods := ["GET"], summary := "",
          description := "", endpointFuncName := "", dependantParams := [] }
      ∧ getEndpointName
          { name := "r", path := "/a/\x7bb", methods := ["GET"], summary := "",
            description := "", endpointFuncName := "", dependantParams := [] }
        = "A"
      ∧ specEndpointName
          { name := "r", path := "/a/\x7bb", methods := ["GET"], summary := "",
            description := "", endpointFuncName := "", dependantParams := [] }
        = "\x7bB" := by
  refine ⟨by decide, by decide, by decide⟩

/-- Claim C3 (amended): for every route with no declared summary the
derived endpoint name follows the claimed derivation order — the empty
string for the reserved handler name `serve_llms_txt`, else the
humanized handler identifier when one is available, else the humanized
last path segment that is neither empty nor starts with the placeholder
opening brace (the code drops every segment starting with the opening
brace, not only complete placeholders of the form `{...}`), else the
empty string; in particular a route with path `/{id}` and no handler
name derives the empty string. -/
theorem claim_C3 :
    (∀ r : RouteR, getEndpointName r = amendedEndpointName r)
      ∧ getEndpointName
          { name := "r", path := "/{id}", methods := ["GET"], summary := "",
            description := "", endpointFuncName := "",
            dependantParams := [] } = "" := by
  constructor
  · intro r
    by_cases h1 : r.endpointFuncName = "serve_llms_txt"
    · simp [getEndpointName, amendedEndpointName, h1]
    · by_cases h2 : r.endpointFuncName = ""
      · by_cases h3 : r.path = ""
        · simp only [getEndpointName, amendedEndpointName, h1, h2, h3]
          decide
        · simp [getEndpointName, amendedEndpointName, h1, h2, h3]
      · simp [getEndpointName, amendedEndpointName, h1, h2]
  · rfl

/-- Claim C7: when the host's tag list already contains a tag whose name
is exactly (case-sensitively) `LLMs.txt`, registration returns the tag
list unchanged: the existing description is not overwritten, no
duplicate entry is appended, and every pre-existing entry is intact. -/
theorem claim_C7 (ts : List TagMeta)
    (h : ∃ t ∈ ts, t.name = some ("LLMs.txt")) :
    updateOpenapiTags (some ts) = ts := by
  rcases h with ⟨t, ht, hn⟩
  have hany : ts.any (fun t => t.name == some ("LLMs.txt")) = true :=
    List.any_eq_true.mpr ⟨t, ht, by simp [hn]⟩
  simp [updateOpenapiTags, hany]

/-- Claim C7, witness: a two-tag registry already containing the
reserved name is returned unchanged. -/
theorem claim_C7_witness :
    (∃ t ∈ [({ name := some ("Other"), description := some ("o") } : TagMeta),
            { name := some ("LLMs.txt"), description := some ("existing") }],
        t.name = some ("LLMs.txt"))
      ∧ updateOpenapiTags
          (some [{ name := some ("Other"), description := some ("o") },
                 { name := some ("LLMs.txt"), description := some ("existing") }])
        = [{ name := some ("Other"), description := some ("o") },
           { name := some ("LLMs.txt"), description := some ("existing") }] := by
  have h : ∃ t ∈ [({ name := some ("Other"), description := some ("o") } : TagMeta),
      { name := some ("LLMs.txt"), description := some ("existing") }],
      t.name = some ("LLMs.txt") := by decide
  exact ⟨h, claim_C7 _ h⟩

/-- Claim C8 (amended): for every route whose dependant-parameter names
(after dropping the absent and empty names the code skips) are pairwise
distinct, the merged parameter list contains no two entries with the
same name.  The unamended claim fails when the dependant metadata itself
repeats a name; see the counterexample. -/
theorem claim_C8 (r : RouteR) (h : (depNames r).Nodup) :
    ((getEndpointParams r).map ParamInfo.name).Nodup := by
  have hdeps := hlp_depEntries_names (pathParams r.path) r.dependantParams
  simp only [getEndpointParams]
  rw [List.map_append]
  apply List.Nodup.append
  · rw [hdeps]; exact h
  · exact (hlp_pathParams_names_nodup r.path).sublist
      ((List.filter_sublist _).map _)
  · intro x hx hy
    rcases List.mem_map.mp hx with ⟨d, hd, hdn⟩
    rcases List.mem_map.mp hy with ⟨pp, hpp, hppn⟩
    have hfil := (List.mem_filter.mp hpp).2
    have hfalse : ((r.dependantParams.filterMap
        (depParamEntry (pathParams r.path))).any
          (fun q => q.name == pp.name)) = false := by
      simpa using hfil
    have htrue : ((r.dependantParams.filterMap
        (depParamEntry (pathParams r.path))).any
          (fun q => q.name == pp.name)) = true :=
      List.any_eq_true.mpr ⟨d, hd, by simp [hdn, hppn]⟩
    rw [hfalse] at htrue
    exact Bool.false_ne_true htrue

/-- Claim C8, counterexample: a route whose dependant metadata lists the
name `a` twice yields a merged parameter list with two entries named
`a`, so the no-duplicate invariant fails as stated. -/
theorem claim_C8_counterexample :
    ¬ (((getEndpointParams
        { name := "dup", path := "/x", methods := ["GET"], summary := "",
          description := "", endpointFuncName := "f",
          dependantParams :=
            [{ name := some ("a"), type_ := "int", required := true,
               fieldInfo := none },
             { name := some ("a"), type_ := "str", required := false,
               fieldInfo := none }] }).map ParamInfo.name).Nodup) := by
  decide

/-- Claim C8, witness for the amended theorem at a concrete route with a
dependant parameter and a path parameter. -/
theorem claim_C8_witness :
    (depNames
        { name := "ok", path := "/items/{item_id}", methods := ["GET"],
          summary := "", description := "", endpointFuncName := "f",
          dependantParams :=
            [{ name := some ("q"), type_ := "int", required := false,
               fieldInfo := none }] }).Nodup
      ∧ ((getEndpointParams
        { name := "ok", path := "/items/{item_id}", methods := ["GET"],
          summary := "", description := "", endpointFuncName := "f",
          dependantParams :=
            [{ name := some ("q"), type_ := "int", required := false,
               fieldInfo := none }] }).map ParamInfo.name).Nodup :=
  ⟨by decide, claim_C8 _ (by decide)⟩

/-- Claim C4: whenever, after excluding the reserved `serve_llms_txt`
route and the routes with an empty path, no route remains, the API
Endpoints block is entirely empty (no header is emitted and the full
output equals the output of an unbound generator); and a non-empty API
Endpoints block always carries content beneath its header, so no
dangling `## API Endpoints` header can be observed. -/
theorem claim_C4 (app : AppModel) (pd : ProjectDescription) :
    (((getAllRoutes app).filter
        (fun r => r.name != "serve_llms_txt" && r.path != "") = []) →
      generateApiDocs app = []
        ∧ generateLines { projectDescription := pd, app := some app }
            = generateLines { projectDescription := pd, app := none })
    ∧ (generateApiDocs app ≠ [] →
        ∃ rest, generateApiDocs app = "## API Endpoints" :: "" :: rest
          ∧ rest ≠ []) := by
  constructor
  · intro hfilter
    have hdocs : generateApiDocs app = [] := by
      simp only [generateApiDocs]
      split
      · rfl
      · simp [hfilter]
    exact ⟨hdocs, by simp [generateLines, hdocs]⟩
  · intro hne
    have hstruct : ∃ rs : List RouteR, rs ≠ [] ∧
        generateApiDocs app = ["## API Endpoints", ""] ++ rs.flatMap routeLines := by
      simp only [generateApiDocs] at hne ⊢
      split at hne
      · exact absurd rfl hne
      · rename_i houter
        rw [if_neg houter]
        split at hne
        · exact absurd rfl hne
        · rename_i hrend
          rw [if_neg hrend]
          refine ⟨_, ?_, rfl⟩
          intro hnil
          rw [hnil] at hrend
          exact hrend rfl
    rcases hstruct with ⟨rs, hrs, heq⟩
    cases rs with
    | nil => exact absurd rfl hrs
    | cons r rs' =>
      refine ⟨(r :: rs').flatMap routeLines, heq, ?_⟩
      have hrl : routeLines r ≠ [] := by simp [routeLines]
      rw [List.flatMap_cons]
      intro hc
      exact hrl (List.append_eq_nil.mp hc).1

/-- Claim C4, witness: an app containing only the documentation route
renders no API Endpoints block, and an app with one real route renders a
header with content beneath it. -/
theorem claim_C4_witness :
    (generateApiDocs { routes := [rLlms] } = []
      ∧ generateLines { projectDescription := pdT, app := some { routes := [rLlms] } }
          = generateLines { projectDescription := pdT, app := none })
    ∧ (∃ rest, generateApiDocs { routes := [rRoot] }
        = "## API Endpoints" :: "" :: rest ∧ rest ≠ []) :=
  ⟨(claim_C4 { routes := [rLlms] } pdT).1 (by decide),
    (claim_C4 { routes := [rRoot] } pdT).2 (by decide)⟩

/-- Claim C9: a rendered route with an empty method list gets the
heading `### GET path`, and one with a non-empty method list gets the
heading `### M1, M2, ... path` with the methods joined by comma and
space; the heading is the first line of the route's block and appears in
the API Endpoints block. -/
theorem claim_C9 (app : AppModel) (r : RouteR)
    (hmem : r ∈ app.routes) (hname : r.name ≠ "serve_llms_txt")
    (hpath : r.path ≠ "") :
    ((r.methods = [] →
        (routeLines r).head? = some ("### GET " ++ r.path)
          ∧ ("### GET " ++ r.path) ∈ generateApiDocs app)
      ∧ (r.methods ≠ [] →
        (routeLines r).head?
            = some ("### " ++ pyJoin (", ") r.methods ++ " " ++ r.path)
          ∧ ("### " ++ pyJoin (", ") r.methods ++ " " ++ r.path)
              ∈ generateApiDocs app)) := by
  have hr1 : r ∈ getAllRoutes app := by
    rw [getAllRoutes, List.mem_filter]
    exact ⟨hmem, by simpa using hname⟩
  have hr2 : r ∈ (getAllRoutes app).filter
      (fun r => r.name != "serve_llms_txt" && r.path != "") := by
    rw [List.mem_filter]
    exact ⟨hr1, by simp [hname, hpath]⟩
  have hdocs : generateApiDocs app
      = ["## API Endpoints", ""]
          ++ ((getAllRoutes app).filter
              (fun r => r.name != "serve_llms_txt" && r.path != "")).flatMap
            routeLines := by
    have h4 : ¬((getAllRoutes app).isEmpty = true) := by
      rw [List.isEmpty_iff]
      exact List.ne_nil_of_mem hr1
    have h5 : ¬((((getAllRoutes app).filter
        (fun r => r.name != "serve_llms_txt" && r.path != ""))).isEmpty = true) := by
      rw [List.isEmpty_iff]
      exact List.ne_nil_of_mem hr2
    simp only [generateApiDocs]
    rw [if_neg h4, if_neg h5]
  have hmemlines : ∀ x ∈ routeLines r, x ∈ generateApiDocs app := by
    intro x hx
    rw [hdocs]
    exact List.mem_append.mpr (Or.inr (List.mem_flatMap.mpr ⟨r, hr2, hx⟩))
  have hhead0 : (routeLines r).head?
      = some ("### "
          ++ (if r.methods.isEmpty then "GET" else pyJoin (", ") r.methods)
          ++ " " ++ r.path) := rfl
  constructor
  · intro hm
    have hhead : (routeLines r).head? = some ("### GET " ++ r.path) := by
      rw [hm] at hhead0
      exact hhead0
    exact ⟨hhead, hmemlines _ (hlp_head_mem hhead)⟩
  · intro hm
    have hie : r.methods.isEmpty = false := by
      cases hmm : r.methods with
      | nil => exact absurd hmm hm
      | cons a l => rfl
    have hhead : (routeLines r).head?
        = some ("### " ++ pyJoin (", ") r.methods ++ " " ++ r.path) := by
      rw [hie] at hhead0
      exact hhead0
    exact ⟨hhead, hmemlines _ (hlp_head_mem hhead)⟩

/-- Claim C9, witness: a methodless route gets the default `GET`
heading, and a two-method route gets the comma-and-space joined
heading. -/
theorem claim_C9_witness :
    ((routeLines rPing).head? = some ("### GET /ping")
      ∧ ("### GET /ping") ∈ generateApiDocs { routes := [rPing] })
    ∧ ((routeLines rUsers).head? = some ("### GET, POST /users")
      ∧ ("### GET, POST /users") ∈ generateApiDocs { routes := [rUsers] }) :=
  ⟨(claim_C9 { routes := [rPing] } rPing
      (by decide) (by decide) (by decide)).1 rfl,
    (claim_C9 { routes := [rUsers] } rUsers
      (by decide) (by decide) (by decide)).2 (by decide)⟩

/-- Claim C6: link processing during registration keeps exactly the
well-formed links (a mapping with both a `title` and a `url` key and a
valid URL) and silently skips every malformed entry while keeping all
well-formed siblings, in order; registration itself completes for every
input (all sections are recorded), and one valid link among three
malformed ones survives alone. -/
theorem claim_C6 :
    (∀ links : List RawLink, processSection links = specProcessSection links)
      ∧ (∀ (ttl smry : String) (notes : Option (List String))
          (secs : List (String × List RawLink)),
          (buildProjectDescription ttl smry notes secs).sections
            = processSections secs)
      ∧ processSection
          [RawLink.mapping
             { title := some ("API Docs"), url := some ("https://example.com/docs") },
           RawLink.mapping { title := none, url := some ("https://example.com/a") },
           RawLink.notMapping,
           RawLink.mapping { title := some ("Bad"), url := some ("not-a-url") }]
        = [{ title := "API Docs", url := "https://example.com/docs" }] := by
  refine ⟨?_, fun _ _ _ _ => rfl, by decide⟩
  intro links
  induction links with
  | nil => rfl
  | cons l ls ih =>
    simp only [processSection, specProcessSection, List.filterMap_cons] at ih ⊢
    rw [hlp_processLink_spec l, ih]

/-- Claim C10: a section all of whose raw links are malformed is still
recorded by registration, with an empty link list, and the generated
output renders its header with zero link lines beneath it rather than
omitting the section. -/
theorem claim_C10 (ttl smry : String) (notes : Option (List String))
    (secs : List (String × List RawLink)) (n : String) (links : List RawLink)
    (appOpt : Option AppModel)
    (hmem : (n, links) ∈ secs)
    (hmal : ∀ l ∈ links, processLink l = none) :
    ((n, ([] : List LinkItem))
        ∈ (buildProjectDescription ttl smry notes secs).sections
      ∧ sectionLines (n, ([] : List LinkItem)) = ["## " ++ n, "", ""]
      ∧ ("## " ++ n) ∈ generateLines
          { projectDescription := buildProjectDescription ttl smry notes secs,
            app := appOpt }) := by
  have hempty : processSection links = [] := by
    rw [processSection]
    exact List.filterMap_eq_nil_iff.mpr hmal
  have hsec : (n, ([] : List LinkItem)) ∈ processSections secs := by
    rw [processSections]
    exact List.mem_map.mpr ⟨(n, links), hmem, by simp [hempty]⟩
  refine ⟨hsec, rfl, ?_⟩
  simp only [generateLines]
  exact List.mem_append.mpr (Or.inr
    (List.mem_flatMap.mpr ⟨(n, []), hsec, by simp [sectionLines]⟩))

/-- Claim C10, witness: a section with two malformed links (a
non-mapping and a mapping missing its title) is recorded empty and its
header is rendered. -/
theorem claim_C10_witness :
    (("Empty", ([] : List LinkItem))
        ∈ (buildProjectDescription ("T") ("S") none
            [(("Empty"), linksBad)]).sections
      ∧ sectionLines ("Empty", ([] : List LinkItem)) = ["## Empty", "", ""]
      ∧ ("## Empty") ∈ generateLines
          { projectDescription :=
              buildProjectDescription ("T") ("S") none [(("Empty"), linksBad)],
            app := none }) :=
  claim_C10 ("T") ("S") none [(("Empty"), linksBad)] ("Empty") linksBad
    none (by decide) (by decide)

/-- Claim C5: with no bound route table the generated lines are exactly
the title line, a blank, the summary line, a blank, the notes block and
then one section block per section in insertion order; in particular the
title line, the summary line, every section header and every link line
occur in the output, and no `## API Endpoints` line occurs (unless the
caller smuggles that very text in as a summary or a section name). -/
theorem claim_C5 (pd : ProjectDescription) :
    (generateLines { projectDescription := pd, app := none }
        = ["# " ++ pd.title, "", pd.summary, ""] ++ notesBlock pd.notes
            ++ pd.sections.flatMap sectionLines)
      ∧ ("# " ++ pd.title) ∈ generateLines { projectDescription := pd, app := none }
      ∧ pd.summary ∈ generateLines { projectDescription := pd, app := none }
      ∧ (∀ s ∈ pd.sections,
          ("## " ++ s.1) ∈ generateLines { projectDescription := pd, app := none }
            ∧ ∀ l ∈ s.2,
              ("- [" ++ l.title ++ "](" ++ l.url ++ ")")
                ∈ generateLines { projectDescription := pd, app := none })
      ∧ (pd.summary ≠ "## API Endpoints" →
          (∀ s ∈ pd.sections, s.1 ≠ "API Endpoints") →
          "## API Endpoints" ∉ generateLines { projectDescription := pd, app := none }) := by
  have hstruct : generateLines { projectDescription := pd, app := none }
      = ["# " ++ pd.title, "", pd.summary, ""] ++ notesBlock pd.notes
          ++ pd.sections.flatMap sectionLines := by
    simp [generateLines]
  refine ⟨hstruct, ?_, ?_, ?_, ?_⟩
  · rw [hstruct]; simp
  · rw [hstruct]; simp
  · intro s hs
    constructor
    · rw [hstruct]
      exact List.mem_append.mpr (Or.inr
        (List.mem_flatMap.mpr ⟨s, hs, by simp [sectionLines]⟩))
    · intro l hl
      rw [hstruct]
      refine List.mem_append.mpr (Or.inr (List.mem_flatMap.mpr ⟨s, hs, ?_⟩))
      simp only [sectionLines]
      exact List.mem_append.mpr (Or.inl (List.mem_append.mpr (Or.inr
        (List.mem_map.mpr ⟨l, hl, rfl⟩))))
  · intro hsum hsecnames hmem
    rw [hstruct] at hmem
    rcases List.mem_append.mp hmem with h | h
    · rcases List.mem_append.mp h with h | h
      · rcases List.mem_cons.mp h with h | h
        · exact hlp_title_ne pd.title h.symm
        · rcases List.mem_cons.mp h with h | h
          · exact absurd h (by decide)
          · rcases List.mem_cons.mp h with h | h
            · exact hsum h.symm
            · rcases List.mem_cons.mp h with h | h
              · exact absurd h (by decide)
              · exact absurd h (List.not_mem_nil _)
      · cases hn : pd.notes with
        | none =>
          rw [hn] at h
          exact absurd h (List.not_mem_nil _)
        | some ns =>
          rw [hn] at h
          simp only [notesBlock] at h
          by_cases he : ns.isEmpty
          · rw [if_pos he] at h
            exact absurd h (List.not_mem_nil _)
          · rw [if_neg he] at h
            rcases List.mem_append.mp h with h | h
            · rcases List.mem_map.mp h with ⟨a, _, ha⟩
              exact hlp_note_ne a ha
            · rcases List.mem_cons.mp h with h | h
              · exact absurd h (by decide)
              · exact absurd h (List.not_mem_nil _)
    · rcases List.mem_flatMap.mp h with ⟨s, hs, hline⟩
      simp only [sectionLines] at hline
      rcases List.mem_append.mp hline with h2 | h2
      · rcases List.mem_append.mp h2 with h3 | h3
        · rcases List.mem_cons.mp h3 with h3 | h3
          · exact hsecnames s hs (hlp_sec_header_eq h3.symm)
          · rcases List.mem_cons.mp h3 with h3 | h3
            · exact absurd h3 (by decide)
            · exact absurd h3 (List.not_mem_nil _)
        · rcases List.mem_map.mp h3 with ⟨l, _, hlm⟩
          exact hlp_linkline_ne l.title l.url hlm
      · rcases List.mem_cons.mp h2 with h2 | h2
        · exact absurd h2 (by decide)
        · exact absurd h2 (List.not_mem_nil _)

/-- Claim C5, witness: a concrete unbound generator renders its title,
summary and section header, and no API Endpoints header. -/
theorem claim_C5_witness :
    ("# T") ∈ generateLines { projectDescription := pdDocs, app := none }
      ∧ ("Sum") ∈ generateLines { projectDescription := pdDocs, app := none }
      ∧ ("## Docs") ∈ generateLines { projectDescription := pdDocs, app := none }
      ∧ "## API Endpoints"
          ∉ generateLines { projectDescription := pdDocs, app := none } := by
  have h := claim_C5 pdDocs
  exact ⟨h.2.1, h.2.2.1,
    (h.2.2.2.1 (("Docs"), [{ title := "A", url := "https://a.example" }])
      (by decide)).1,
    h.2.2.2.2 (by decide) (by decide)⟩

end LlmsTxt
